import Mathlib

/-!
Verification development for the Polymarket wallet-activity tracker's
ingestion-and-detection engine.

The data model is embedded from `src/schema.sql` (tables `wallets`,
`markets`, `trades`, `positions`, `alerts`, their defaults and uniqueness
constraints) and from the TypeScript interfaces in
`src/frontend/lib/api.ts`.  The engine operations (collector pipeline,
position tracker, wallet classifier, risk scoring, alert manager) are not
shipped in the repository snapshot (only the schema, the frontend client
and setup docs are), so they are modelled from the specification, each
such definition carrying a `Modelled from the spec:` doc comment.

Timestamps are natural numbers counted in days; DECIMAL columns are
rationals; SERIAL ids are naturals.
-/

namespace PolyTracker

/-- `trades.trade_type VARCHAR(10)` — 'buy' or 'sell' (spec §3). -/
inductive TradeType where
  | buy
  | sell
deriving DecidableEq, Repr

/-- `positions.status VARCHAR(20)` — 'open' or 'closed' (schema.sql line 57).
`opened` stands for the SQL string 'open' (a Lean keyword). -/
inductive PositionStatus where
  | opened
  | closed
deriving DecidableEq, Repr

/-- `alerts.status VARCHAR(20)` — 'pending' | 'won' | 'lost' | 'dismissed'
(schema.sql line 73, spec §3). -/
inductive AlertStatus where
  | pending
  | won
  | lost
  | dismissed
deriving DecidableEq, Repr

/-- Row of the `wallets` table (schema.sql lines 4-14). -/
structure Wallet where
  address : String
  first_seen_date : Nat
  last_activity_date : Option Nat
  total_trades : Nat
  total_volume : ℚ
  lifetime_pnl : ℚ
  is_fresh : Bool
deriving DecidableEq, Repr

/-- Row of the `markets` table (schema.sql lines 17-31). -/
structure Market where
  market_id : String
  title : String
  category : Option String
  end_date : Option Nat
  resolution_date : Option Nat
  resolved : Bool
  outcome : Option String
  total_volume : Option ℚ
  holder_count : Option Nat
deriving DecidableEq, Repr

/-- Row of the `trades` table (schema.sql lines 34-45); `tx_hash` is the
unique natural idempotency key. -/
structure Trade where
  tx_hash : String
  wallet_address : String
  market_id : String
  trade_type : TradeType
  token_amount : ℚ
  shares : ℚ
  price : ℚ
  timestamp : Nat
deriving DecidableEq, Repr

/-- Row of the `positions` table (schema.sql lines 48-60); the schema
declares `UNIQUE(wallet_address, market_id)`. -/
structure Position where
  wallet_address : String
  market_id : String
  shares : ℚ
  avg_purchase_price : ℚ
  total_invested : ℚ
  current_value : ℚ
  unrealized_pnl : ℚ
  status : PositionStatus
deriving DecidableEq, Repr

/-- Row of the `alerts` table (schema.sql lines 63-76).  The spec states the
alert dedup key is the triggering trade's tx_hash, so the trade reference is
carried as that hash. -/
structure Alert where
  id : Nat
  wallet_address : String
  market_id : String
  trade_tx_hash : String
  risk_score : Int
  risk_factors : List (String × Int)
  position_size : ℚ
  potential_payout : Option ℚ
  market_resolution_date : Option Nat
  status : AlertStatus
  actual_return : Option ℚ
deriving DecidableEq, Repr

/-- The repository: durable store of wallets, markets, trades, positions and
alerts (spec §2), with the SERIAL counter for alert ids. -/
structure Store where
  wallets : List Wallet
  markets : List Market
  trades : List Trade
  positions : List Position
  alerts : List Alert
  next_alert_id : Nat
deriving DecidableEq, Repr

/-- The empty store: no rows, SERIAL counter at 1. -/
def initStore : Store :=
  { wallets := [], markets := [], trades := [], positions := [], alerts := []
    next_alert_id := 1 }

/-- Configuration surface (spec §6, SETUP.md lines 211-215): scoring and
classification thresholds, environment-provided. -/
structure Config where
  suspicious_threshold : Int
  fresh_wallet_days : Nat
  fresh_wallet_max_txs : Nat
  fresh_wallet_max_position : ℚ
  freshness_weight : Int
  size_abs_threshold : ℚ
  size_abs_weight : Int
  size_rel_mult : ℚ
  size_rel_weight : Int
  timing_window_days : Nat
  timing_weight : Int
  niche_volume_threshold : ℚ
  niche_holder_threshold : Nat
  niche_weight : Int
  concentration_fraction : ℚ
  concentration_weight : Int
deriving Repr

/-- Is a trade with this tx_hash already stored? (`trades.tx_hash UNIQUE`). -/
def hasTrade (s : Store) (h : String) : Bool :=
  s.trades.any (fun t => t.tx_hash == h)

/-- Is there already an Alert whose triggering trade has this tx_hash? -/
def hasAlertFor (alerts : List Alert) (h : String) : Bool :=
  alerts.any (fun a => a.trade_tx_hash == h)

/-- Look up a wallet row by address. -/
def findWallet (ws : List Wallet) (addr : String) : Option Wallet :=
  ws.find? (fun w => w.address == addr)

/-- Look up the position row for a (wallet_address, market_id) pair. -/
def findPosition (ps : List Position) (addr mid : String) : Option Position :=
  ps.find? (fun p => p.wallet_address == addr && p.market_id == mid)

/-- Modelled from the spec: §4.1 step 1 — upsert Market metadata keyed by
market_id (the collector service is not in the repository snapshot). -/
def upsertMarket (mi : Market) : List Market → List Market
  | [] => [mi]
  | m :: ms =>
    if m.market_id == mi.market_id then mi :: ms else m :: upsertMarket mi ms

/-- A freshly inserted wallet row with the schema defaults: totals 0,
lifetime_pnl 0 and `is_fresh` DEFAULT TRUE (schema.sql line 11). -/
def defaultWallet (addr : String) (first_seen : Nat) : Wallet :=
  { address := addr, first_seen_date := first_seen, last_activity_date := none
    total_trades := 0, total_volume := 0, lifetime_pnl := 0, is_fresh := true }

/-- Modelled from the spec: §4.1 step 2 — upsert Wallet record (create on
first sight). -/
def ensureWallet (addr : String) (ts : Nat) (ws : List Wallet) : List Wallet :=
  if ws.any (fun w => w.address == addr) then ws else ws ++ [defaultWallet addr ts]

/-- A position row opened by a wallet's first buy in a market, with the schema
default status 'open' (schema.sql line 57). -/
def newPositionFromBuy (t : Trade) : Position :=
  { wallet_address := t.wallet_address, market_id := t.market_id
    shares := t.shares, avg_purchase_price := t.price
    total_invested := t.token_amount
    current_value := t.shares * t.price
    unrealized_pnl := t.shares * t.price - t.token_amount
    status := PositionStatus.opened }

/-- Modelled from the spec: §4.3 buy update (the Position Tracker service is
not in the repository snapshot) — new average purchase price is the
volume-weighted blend of the existing (shares, avg_price) with the incoming
(shares, price); total_invested += token_amount; shares += shares traded;
current_value and unrealized_pnl recomputed at the latest known price (the
trade's price being the latest known valuation input). -/
def applyBuy (t : Trade) (p : Position) : Position :=
  let newShares := p.shares + t.shares
  { p with
    shares := newShares
    avg_purchase_price :=
      (p.shares * p.avg_purchase_price + t.shares * t.price) / newShares
    total_invested := p.total_invested + t.token_amount
    current_value := newShares * t.price
    unrealized_pnl := newShares * t.price - (p.total_invested + t.token_amount)
    status := PositionStatus.opened }

/-- Modelled from the spec: §4.3 sell update, applied only when the sold
shares do not exceed the held shares — shares -= shares traded,
total_invested reduced proportionally to the shares removed, status flips to
'closed' when shares reach zero. -/
def applySell (t : Trade) (p : Position) : Position :=
  let remaining := p.shares - t.shares
  let invRemoved :=
    if p.shares = 0 then 0 else p.total_invested * (t.shares / p.shares)
  { p with
    shares := remaining
    total_invested := p.total_invested - invRemoved
    current_value := remaining * t.price
    unrealized_pnl := remaining * t.price - (p.total_invested - invRemoved)
    status := if remaining = 0 then PositionStatus.closed else PositionStatus.opened }

/-- Modelled from the spec: §4.3/§7(c) — a sell is consistent only when a
position row exists for the pair and the sold shares do not exceed the held
shares; otherwise it is an InconsistentPositionError. -/
def sellIsConsistent (t : Trade) (ps : List Position) : Bool :=
  match findPosition ps t.wallet_address t.market_id with
  | none => false
  | some p => decide (t.shares ≤ p.shares)

/-- Modelled from the spec: §4.3 — the realized P&L booked into the wallet's
lifetime_pnl by a consistent sell: proceeds minus the invested amount removed. -/
def sellRealizedPnl (t : Trade) (ps : List Position) : ℚ :=
  match findPosition ps t.wallet_address t.market_id with
  | some p =>
    if p.shares = 0 then 0
    else t.token_amount - p.total_invested * (t.shares / p.shares)
  | none => 0

/-- Modelled from the spec: position upsert for a buy, keyed by
(wallet_address, market_id): blend into the existing row, or open a new one. -/
def updatePositionBuy (t : Trade) : List Position → List Position
  | [] => [newPositionFromBuy t]
  | p :: ps =>
    if p.wallet_address == t.wallet_address && p.market_id == t.market_id then
      applyBuy t p :: ps
    else p :: updatePositionBuy t ps

/-- Modelled from the spec: apply a consistent sell to the matching position
row in place. -/
def updatePositionSell (t : Trade) (ps : List Position) : List Position :=
  ps.map (fun p =>
    if p.wallet_address == t.wallet_address && p.market_id == t.market_id then
      applySell t p
    else p)

/-- Modelled from the spec: §4.2 — the wallet's largest single position value. -/
def largestPositionValue (addr : String) (ps : List Position) : ℚ :=
  (ps.filter (fun p => p.wallet_address == addr)).foldl
    (fun acc p => max acc p.current_value) 0

/-- Modelled from the spec: §4.2 (the Wallet Classifier service is not in the
repository snapshot) — `is_fresh` is true iff ALL hold: wallet age
(now − first_seen_date) ≤ FRESH_WALLET_DAYS, total_trades ≤
FRESH_WALLET_MAX_TXS, and the largest single position value ≤
FRESH_WALLET_MAX_POSITION; all bounds inclusive. -/
def isFresh (cfg : Config) (now : Nat) (w : Wallet) (largestPos : ℚ) : Bool :=
  decide (now - w.first_seen_date ≤ cfg.fresh_wallet_days)
    && decide (w.total_trades ≤ cfg.fresh_wallet_max_txs)
    && decide (largestPos ≤ cfg.fresh_wallet_max_position)

/-- Modelled from the spec: §4.2 — on every trade touching a wallet:
total_trades +1, total_volume += trade notional, last_activity_date set to the
trade timestamp, and is_fresh recomputed from the updated stats. -/
def classifyWalletOnTrade (cfg : Config) (now : Nat) (t : Trade)
    (ps : List Position) (w : Wallet) : Wallet :=
  let w1 := { w with
    total_trades := w.total_trades + 1
    total_volume := w.total_volume + t.token_amount
    last_activity_date := some t.timestamp }
  { w1 with is_fresh := isFresh cfg now w1 (largestPositionValue w.address ps) }

/-- Apply an update to the wallet row with the given address. -/
def updateWallet (addr : String) (f : Wallet → Wallet) (ws : List Wallet) :
    List Wallet :=
  ws.map (fun w => if w.address == addr then f w else w)

/-- Modelled from the spec: §4.4 freshness factor — a fresh wallet
contributes a fixed base score (the Risk Scoring Engine service is not in the
repository snapshot). -/
def freshnessFactor (cfg : Config) (w : Option Wallet) : Int :=
  match w with
  | some w => if w.is_fresh then cfg.freshness_weight else 0
  | none => 0

/-- Modelled from the spec: §4.4 position-size factor — position size
relative to the wallet's historical average trade size and relative to an
absolute USD threshold, stepped. -/
def positionSizeFactor (cfg : Config) (t : Trade) (w : Option Wallet) : Int :=
  (if cfg.size_abs_threshold ≤ t.token_amount then cfg.size_abs_weight else 0)
  + (match w with
     | some w =>
       if 0 < w.total_trades ∧
          w.total_volume / (w.total_trades : ℚ) * cfg.size_rel_mult ≤ t.token_amount
       then cfg.size_rel_weight else 0
     | none => 0)

/-- Modelled from the spec: §4.4 timing factor — trades placed within a short
window before the market's resolution_date score higher. -/
def timingFactor (cfg : Config) (t : Trade) (m : Option Market) : Int :=
  match m with
  | some m =>
    match m.resolution_date with
    | some r =>
      if t.timestamp ≤ r ∧ r - t.timestamp ≤ cfg.timing_window_days
      then cfg.timing_weight else 0
    | none => 0
  | none => 0

/-- Modelled from the spec: §4.4 market-niche factor — low total_volume or
low holder_count markets score higher. -/
def marketNicheFactor (cfg : Config) (m : Option Market) : Int :=
  match m with
  | some m =>
    (match m.total_volume with
     | some v => if v ≤ cfg.niche_volume_threshold then cfg.niche_weight else 0
     | none => 0)
    + (match m.holder_count with
       | some hc => if hc ≤ cfg.niche_holder_threshold then cfg.niche_weight else 0
       | none => 0)
  | none => 0

/-- Modelled from the spec: §4.4 concentration factor — a position that is a
large fraction of the wallet's total portfolio value scores higher. -/
def concentrationFactor (cfg : Config) (t : Trade) (w : Option Wallet)
    (p : Option Position) : Int :=
  match w, p with
  | some w, some p =>
    if 0 < w.total_volume ∧
       cfg.concentration_fraction * (w.total_volume + t.token_amount) ≤ p.total_invested
    then cfg.concentration_weight else 0
  | _, _ => 0

/-- Modelled from the spec: §4.4 — the declarative table of independent
factor contributions (factor name → point contribution), persisted verbatim. -/
def riskFactors (cfg : Config) (t : Trade) (w : Option Wallet)
    (p : Option Position) (m : Option Market) : List (String × Int) :=
  [("freshness", freshnessFactor cfg w),
   ("position_size", positionSizeFactor cfg t w),
   ("timing", timingFactor cfg t m),
   ("market_niche", marketNicheFactor cfg m),
   ("concentration", concentrationFactor cfg t w p)]

/-- Modelled from the spec: §4.4 — the composite risk score: the sum of the
independently computed factor contributions. -/
def riskScore (cfg : Config) (t : Trade) (w : Option Wallet)
    (p : Option Position) (m : Option Market) : Int :=
  (riskFactors cfg t w p m).foldl (fun acc f => acc + f.2) 0

/-- Modelled from the spec: the alert row created when a trade crosses
SUSPICIOUS_THRESHOLD — status is the schema default 'pending'
(schema.sql line 73), actual_return unset at creation. -/
def newAlert (id : Nat) (t : Trade) (m : Option Market) (score : Int)
    (factors : List (String × Int)) (p : Option Position) : Alert :=
  { id := id, wallet_address := t.wallet_address, market_id := t.market_id
    trade_tx_hash := t.tx_hash, risk_score := score, risk_factors := factors
    position_size := t.token_amount
    potential_payout := p.map (fun q => q.shares)
    market_resolution_date := m.bind (fun mk => mk.resolution_date)
    status := AlertStatus.pending
    actual_return := none }

/-- Modelled from the spec: §4.5 dedup — creating an Alert for a tx_hash
that already has one is a no-op (idempotent). -/
def tryCreateAlert (a : Alert) (s : Store) : Store :=
  if hasAlertFor s.alerts a.trade_tx_hash then s
  else { s with alerts := s.alerts ++ [a], next_alert_id := s.next_alert_id + 1 }

/-- Modelled from the spec: §4.1 — the single-trade pipeline of the collector
loop (the collector service is not in the repository snapshot): a trade whose
tx_hash is already stored is skipped as a no-op (§7(b) DuplicateTradeError);
otherwise upsert Market and Wallet, insert the Trade, update the Position
(skipping an inconsistent sell per §7(c) while still recording the Trade),
reclassify the wallet, score the trade, and escalate to the Alert Manager iff
the score reaches SUSPICIOUS_THRESHOLD. -/
def ingestTrade (cfg : Config) (now : Nat) (ti : Trade) (mi : Market)
    (s : Store) : Store :=
  if hasTrade s ti.tx_hash then s
  else
    let wallets1 := ensureWallet ti.wallet_address ti.timestamp s.wallets
    let markets1 := upsertMarket mi s.markets
    let trades1 := s.trades ++ [ti]
    let posPnl :=
      match ti.trade_type with
      | TradeType.buy => (updatePositionBuy ti s.positions, (0 : ℚ))
      | TradeType.sell =>
        if sellIsConsistent ti s.positions then
          (updatePositionSell ti s.positions, sellRealizedPnl ti s.positions)
        else (s.positions, 0)
    let positions1 := posPnl.1
    let wallets2 := updateWallet ti.wallet_address
      (fun w => { w with lifetime_pnl := w.lifetime_pnl + posPnl.2 }) wallets1
    let wallets3 := updateWallet ti.wallet_address
      (classifyWalletOnTrade cfg now ti positions1) wallets2
    let s1 : Store := { s with
      wallets := wallets3, markets := markets1
      trades := trades1, positions := positions1 }
    let w := findWallet s1.wallets ti.wallet_address
    let p := findPosition s1.positions ti.wallet_address ti.market_id
    let m := s1.markets.find? (fun mk => mk.market_id == ti.market_id)
    let score := riskScore cfg ti w p m
    if cfg.suspicious_threshold ≤ score then
      tryCreateAlert (newAlert s1.next_alert_id ti m score (riskFactors cfg ti w p m) p) s1
    else s1

/-- Modelled from the spec: §4.5/§6 — dismiss(alert_id) transitions the
targeted Alert to 'dismissed'; 'dismissed' is reachable from 'pending' only,
so a non-pending Alert is left untouched. -/
def dismissOne (alert_id : Nat) (a : Alert) : Alert :=
  if a.id = alert_id ∧ a.status = AlertStatus.pending then
    { a with status := AlertStatus.dismissed }
  else a

/-- Modelled from the spec: the store effect of the dismiss mutation. -/
def dismissAlert (alert_id : Nat) (s : Store) : Store :=
  { s with alerts := s.alerts.map (dismissOne alert_id) }

/-- Is the market referenced by the alert resolved in the store? -/
def marketResolvedFor (s : Store) (a : Alert) : Bool :=
  match s.markets.find? (fun m => m.market_id == a.market_id) with
  | some m => m.resolved
  | none => false

/-- Modelled from the spec: §4.5 resolution sweep — the actual return computed
from the position's final state against the resolved outcome: payout of the
held shares on the winning side minus the invested amount. -/
def resolveReturn (s : Store) (a : Alert) : ℚ :=
  match findPosition s.positions a.wallet_address a.market_id with
  | some p =>
    (match s.markets.find? (fun m => m.market_id == a.market_id) with
     | some m => if m.outcome = some "Yes" then p.shares else 0
     | none => 0) - p.total_invested
  | none => -a.position_size

/-- Modelled from the spec: §4.5 — a pending Alert whose market is resolved
transitions to 'won' when the position realized a positive payout against the
resolved outcome, otherwise to 'lost'; actual_return is recorded. -/
def sweepOne (s : Store) (a : Alert) : Alert :=
  if a.status = AlertStatus.pending ∧ marketResolvedFor s a = true then
    let r := resolveReturn s a
    { a with
      status := if 0 < r then AlertStatus.won else AlertStatus.lost
      actual_return := some r }
  else a

/-- Modelled from the spec: §4.5 — the resolution sweep over all alerts. -/
def resolutionSweep (s : Store) : Store :=
  { s with alerts := s.alerts.map (sweepOne s) }

/-- The operations that drive the store: trade ingestion by the collector
loop, the resolution sweep, and the API layer's single mutation, dismiss. -/
inductive Op where
  | ingest (cfg : Config) (now : Nat) (ti : Trade) (mi : Market)
  | sweep
  | dismiss (alert_id : Nat)

/-- Apply one operation to the store. -/
def applyOp : Op → Store → Store
  | Op.ingest cfg now ti mi, s => ingestTrade cfg now ti mi s
  | Op.sweep, s => resolutionSweep s
  | Op.dismiss i, s => dismissAlert i s

/-- The store states reachable from the empty store by the system's
operations. -/
inductive Reachable : Store → Prop where
  | init : Reachable initStore
  | step {s : Store} (op : Op) : Reachable s → Reachable (applyOp op s)

/-- The operations of `apiClient` in src/frontend/lib/api.ts lines 71-130,
identified by route; pagination/filter parameters do not affect stored state
and are omitted. -/
inductive ApiOp where
  | getAnalyticsSummary
  | getWallets
  | getWallet (address : String)
  | getWalletTrades (address : String)
  | getMarkets
  | getMarket (market_id : String)
  | getTrades
  | getTrade (tx_hash : String)
  | getAlerts
  | getAlert (id : Nat)
  | dismissAlert (id : Nat)
deriving DecidableEq, Repr

/-- Modelled from the spec: §6 — the API layer exposed to clients consists of
read queries over the five tables plus the single mutation dismiss(alert_id)
(the FastAPI service handling the routes is not in the repository snapshot).
This is the store effect of each apiClient call. -/
def apiApply : ApiOp → Store → Store
  | ApiOp.dismissAlert i, s => dismissAlert i s
  | _, s => s

/-! Concrete fixtures used by witnesses: the SETUP.md defaults
(SUSPICIOUS_THRESHOLD=20, FRESH_WALLET_DAYS=30, FRESH_WALLET_MAX_TXS=20,
FRESH_WALLET_MAX_POSITION=10000) and small example rows. -/

/-- The configuration defaults documented in SETUP.md lines 205-215, with
representative factor weights. -/
def cfgEx : Config :=
  { suspicious_threshold := 20, fresh_wallet_days := 30
    fresh_wallet_max_txs := 20, fresh_wallet_max_position := 10000
    freshness_weight := 10, size_abs_threshold := 5000, size_abs_weight := 10
    size_rel_mult := 5, size_rel_weight := 5
    timing_window_days := 1, timing_weight := 10
    niche_volume_threshold := 10000, niche_holder_threshold := 50
    niche_weight := 5, concentration_fraction := 1/2, concentration_weight := 5 }

/-- A wallet sitting exactly at the freshness boundary for `cfgEx` at day 30. -/
def walletEx : Wallet :=
  { address := "0xw", first_seen_date := 0, last_activity_date := none
    total_trades := 20, total_volume := 100, lifetime_pnl := 0, is_fresh := true }

/-- First example buy: 10 shares at price $1 ($10 notional). -/
def buyTrade1 : Trade :=
  { tx_hash := "0xaaa", wallet_address := "0xw", market_id := "mkt"
    trade_type := TradeType.buy, token_amount := 10, shares := 10, price := 1
    timestamp := 0 }

/-- Second example buy: 10 shares at price $2 ($20 notional). -/
def buyTrade2 : Trade :=
  { tx_hash := "0xbbb", wallet_address := "0xw", market_id := "mkt"
    trade_type := TradeType.buy, token_amount := 20, shares := 10, price := 2
    timestamp := 1 }

/-- An example market row. -/
def marketEx : Market :=
  { market_id := "mkt", title := "Example market", category := none
    end_date := some 10, resolution_date := some 10, resolved := false
    outcome := none, total_volume := some 5000, holder_count := some 10 }

/-- C10: Initial-state invariant of newly inserted rows: a wallet row
inserted without an explicit is_fresh value has is_fresh = TRUE (schema.sql
line 11), a Position inserted without an explicit status has status 'open'
(line 57), and an Alert inserted without an explicit status has status
'pending' (line 73). -/
theorem inserted_row_defaults (addr : String) (ts : Nat) (t : Trade)
    (i : Nat) (m : Option Market) (score : Int)
    (factors : List (String × Int)) (p : Option Position) :
    (defaultWallet addr ts).is_fresh = true ∧
    (newPositionFromBuy t).status = PositionStatus.opened ∧
    (newAlert i t m score factors p).status = AlertStatus.pending :=
  ⟨rfl, rfl, rfl⟩

/-- C5: On every buy applied to a Position, the new average purchase price is
the volume-weighted blend of the existing (shares, avg_price) with the
incoming (shares, price), total_invested grows by the trade's token_amount
and shares grow by the shares traded; concretely, buying 10 shares at $1 then
10 shares at $2 yields average purchase price $1.50 and total_invested $30. -/
theorem buy_blend_correct :
    (∀ (t : Trade) (p : Position),
      (applyBuy t p).avg_purchase_price
          = (p.shares * p.avg_purchase_price + t.shares * t.price)
              / (p.shares + t.shares) ∧
      (applyBuy t p).total_invested = p.total_invested + t.token_amount ∧
      (applyBuy t p).shares = p.shares + t.shares) ∧
    (updatePositionBuy buyTrade2 (updatePositionBuy buyTrade1 [])).map
        (fun p => (p.avg_purchase_price, p.total_invested, p.shares))
      = [(3/2, 30, 20)] := by
  constructor
  · exact fun t p => ⟨rfl, rfl, rfl⟩
  · norm_num [updatePositionBuy, applyBuy, newPositionFromBuy, buyTrade1, buyTrade2]

/-- C6: is_fresh is true iff all three inclusive bounds hold (age within
FRESH_WALLET_DAYS, total_trades within FRESH_WALLET_MAX_TXS, largest position
within FRESH_WALLET_MAX_POSITION); a wallet exactly at the day and trade-count
bounds is still fresh, and one more trade or one more day makes it not fresh. -/
theorem is_fresh_iff_and_boundary (cfg : Config) (now : Nat) (w : Wallet)
    (lp : ℚ) :
    (isFresh cfg now w lp = true ↔
      (now - w.first_seen_date ≤ cfg.fresh_wallet_days ∧
       w.total_trades ≤ cfg.fresh_wallet_max_txs ∧
       lp ≤ cfg.fresh_wallet_max_position)) ∧
    (now - w.first_seen_date = cfg.fresh_wallet_days →
      w.total_trades = cfg.fresh_wallet_max_txs →
      lp ≤ cfg.fresh_wallet_max_position →
      isFresh cfg now w lp = true) ∧
    (w.total_trades = cfg.fresh_wallet_max_txs + 1 →
      isFresh cfg now w lp = false) ∧
    (now - w.first_seen_date = cfg.fresh_wallet_days + 1 →
      isFresh cfg now w lp = false) := by
  refine ⟨?_, ?_, ?_, ?_⟩
  · simp [isFresh, and_assoc]
  · intro h1 h2 h3
    simp [isFresh, h1, h2, h3]
  · intro h
    simp [isFresh, h]
  · intro h
    simp [isFresh, h]

/-- Witness for C6 at the SETUP.md defaults: a wallet first seen on day 0,
evaluated on day 30 with exactly 20 trades and a $100 largest position, is
still fresh. -/
theorem is_fresh_iff_and_boundary_witness :
    isFresh cfgEx 30 walletEx 100 = true :=
  (is_fresh_iff_and_boundary cfgEx 30 walletEx 100).2.1
    (by decide) (by decide) (by norm_num [cfgEx])

/-- C7: the Risk Scoring Engine is a deterministic pure function: two runs on
identical (trade, wallet snapshot, position snapshot, market snapshot) inputs
return the same integer score and the same factor-name-to-contribution
breakdown. -/
theorem risk_scoring_deterministic (cfg : Config) (t₁ t₂ : Trade)
    (w₁ w₂ : Option Wallet) (p₁ p₂ : Option Position) (m₁ m₂ : Option Market)
    (ht : t₁ = t₂) (hw : w₁ = w₂) (hp : p₁ = p₂) (hm : m₁ = m₂) :
    riskScore cfg t₁ w₁ p₁ m₁ = riskScore cfg t₂ w₂ p₂ m₂ ∧
    riskFactors cfg t₁ w₁ p₁ m₁ = riskFactors cfg t₂ w₂ p₂ m₂ := by
  subst ht hw hp hm
  exact ⟨rfl, rfl⟩

/-- Witness for C7 at concrete snapshots. -/
theorem risk_scoring_deterministic_witness :
    riskScore cfgEx buyTrade1 (some walletEx) none (some marketEx)
        = riskScore cfgEx buyTrade1 (some walletEx) none (some marketEx) ∧
    riskFactors cfgEx buyTrade1 (some walletEx) none (some marketEx)
        = riskFactors cfgEx buyTrade1 (some walletEx) none (some marketEx) :=
  risk_scoring_deterministic cfgEx buyTrade1 buyTrade1 (some walletEx)
    (some walletEx) none none (some marketEx) (some marketEx) rfl rfl rfl rfl

/-- A duplicate tx_hash makes the whole single-trade pipeline a no-op
(spec §4.1 step 3, §7(b)). -/
theorem ingest_dup_eq (cfg : Config) (now : Nat) (ti : Trade) (mi : Market)
    (s : Store) (h : hasTrade s ti.tx_hash = true) :
    ingestTrade cfg now ti mi s = s := by
  unfold ingestTrade
  simp [h]

/-- An unseen trade is always appended to the trade store, whatever the
position and alert outcomes. -/
theorem ingest_unseen_trades (cfg : Config) (now : Nat) (ti : Trade)
    (mi : Market) (s : Store) (h : hasTrade s ti.tx_hash = false) :
    (ingestTrade cfg now ti mi s).trades = s.trades ++ [ti] := by
  unfold ingestTrade tryCreateAlert
  simp only [h, Bool.false_eq_true, if_false]
  repeat' split
  all_goals rfl

/-- Ingestion only ever appends to the alert store. -/
theorem ingest_alerts_shape (cfg : Config) (now : Nat) (ti : Trade)
    (mi : Market) (s : Store) :
    ∃ r, (ingestTrade cfg now ti mi s).alerts = s.alerts ++ r := by
  unfold ingestTrade tryCreateAlert
  dsimp only
  repeat' split
  all_goals first
    | exact ⟨[], (List.append_nil _).symm⟩
    | exact ⟨_, rfl⟩

/-- C1: ingestion is idempotent on tx_hash: when a trade with the same
tx_hash is already stored, re-ingestion leaves the trade store unchanged,
the wallet store (hence the owning wallet's total_trades and total_volume)
unchanged, and the alert store unchanged. -/
theorem reingest_same_txhash_noop (cfg : Config) (now : Nat) (ti : Trade)
    (mi : Market) (s : Store) (t : Trade) (ht : t ∈ s.trades)
    (hh : t.tx_hash = ti.tx_hash) :
    (ingestTrade cfg now ti mi s).trades = s.trades ∧
    (ingestTrade cfg now ti mi s).wallets = s.wallets ∧
    (ingestTrade cfg now ti mi s).alerts = s.alerts := by
  have hdup : hasTrade s ti.tx_hash = true := by
    simp only [hasTrade, List.any_eq_true, beq_iff_eq]
    exact ⟨t, ht, hh⟩
  rw [ingest_dup_eq cfg now ti mi s hdup]
  exact ⟨rfl, rfl, rfl⟩

/-- Witness for C1: re-ingesting the stored example trade is a no-op. -/
theorem reingest_same_txhash_noop_witness :
    (ingestTrade cfgEx 0 buyTrade1 marketEx
        { initStore with trades := [buyTrade1] }).trades = [buyTrade1] ∧
    (ingestTrade cfgEx 0 buyTrade1 marketEx
        { initStore with trades := [buyTrade1] }).wallets = [] ∧
    (ingestTrade cfgEx 0 buyTrade1 marketEx
        { initStore with trades := [buyTrade1] }).alerts = [] :=
  reingest_same_txhash_noop cfgEx 0 buyTrade1 marketEx
    { initStore with trades := [buyTrade1] } buyTrade1 (List.mem_singleton.mpr rfl) rfl

/-- When an unseen sell is inconsistent (oversell or no position row), the
position store is left untouched by the pipeline. -/
theorem ingest_positions_inconsistent_sell (cfg : Config) (now : Nat)
    (ti : Trade) (mi : Market) (s : Store)
    (h : hasTrade s ti.tx_hash = false)
    (hsell : ti.trade_type = TradeType.sell)
    (hcons : sellIsConsistent ti s.positions = false) :
    (ingestTrade cfg now ti mi s).positions = s.positions := by
  unfold ingestTrade tryCreateAlert
  simp only [h, Bool.false_eq_true, if_false, hsell, hcons]
  repeat' split
  all_goals rfl

/-- An example open position of 5 shares. -/
def positionEx : Position :=
  { wallet_address := "0xw", market_id := "mkt", shares := 5
    avg_purchase_price := 1, total_invested := 5, current_value := 5
    unrealized_pnl := 0, status := PositionStatus.opened }

/-- An example sell of 10 shares, exceeding the 5 held in `positionEx`. -/
def sellTradeEx : Trade :=
  { tx_hash := "0xccc", wallet_address := "0xw", market_id := "mkt"
    trade_type := TradeType.sell, token_amount := 10, shares := 10, price := 1
    timestamp := 2 }

/-- A store holding only `positionEx`. -/
def storeOversell : Store := { initStore with positions := [positionEx] }

/-- C8: a sell whose shares exceed the shares held in the (wallet, market)
Position is treated as an inconsistent-state error: the Position store is
unchanged by that trade (no negative shares), the trade is still recorded as
a Trade, and processing of subsequent trades is not blocked (any later unseen
trade is still recorded). -/
theorem oversold_sell_skipped (cfg : Config) (now : Nat) (ti : Trade)
    (mi : Market) (s : Store) (p : Position)
    (hnew : hasTrade s ti.tx_hash = false)
    (hsell : ti.trade_type = TradeType.sell)
    (hpos : findPosition s.positions ti.wallet_address ti.market_id = some p)
    (hover : p.shares < ti.shares) :
    (ingestTrade cfg now ti mi s).positions = s.positions ∧
    (ingestTrade cfg now ti mi s).trades = s.trades ++ [ti] ∧
    (∀ (cfg₂ : Config) (now₂ : Nat) (t₂ : Trade) (mi₂ : Market),
      hasTrade (ingestTrade cfg now ti mi s) t₂.tx_hash = false →
      t₂ ∈ (ingestTrade cfg₂ now₂ t₂ mi₂ (ingestTrade cfg now ti mi s)).trades) := by
  have hcons : sellIsConsistent ti s.positions = false := by
    unfold sellIsConsistent
    rw [hpos]
    exact decide_eq_false (not_le.mpr hover)
  refine ⟨ingest_positions_inconsistent_sell cfg now ti mi s hnew hsell hcons,
    ingest_unseen_trades cfg now ti mi s hnew, ?_⟩
  intro cfg₂ now₂ t₂ mi₂ h₂
  rw [ingest_unseen_trades cfg₂ now₂ t₂ mi₂ _ h₂]
  simp

/-- Witness for C8: selling 10 shares against a 5-share position leaves the
position store unchanged while the trade is still recorded. -/
theorem oversold_sell_skipped_witness :
    (ingestTrade cfgEx 2 sellTradeEx marketEx storeOversell).positions
        = storeOversell.positions ∧
    (ingestTrade cfgEx 2 sellTradeEx marketEx storeOversell).trades
        = storeOversell.trades ++ [sellTradeEx] := by
  have h := oversold_sell_skipped cfgEx 2 sellTradeEx marketEx storeOversell
    positionEx rfl rfl (by simp [findPosition, storeOversell, positionEx, sellTradeEx, initStore])
    (by norm_num [positionEx, sellTradeEx])
  exact ⟨h.1, h.2.1⟩

/-- C9: the interface exposed to the API layer is read-only except for the
single mutation: every apiClient operation other than dismissAlert leaves the
store unchanged, and dismissAlert(alert_id) leaves wallets, markets, trades
and positions unchanged while mapping only the targeted pending Alert's
status to 'dismissed'. -/
theorem api_read_only_except_dismiss (op : ApiOp) (s : Store) (i : Nat) :
    ((∀ j, op ≠ ApiOp.dismissAlert j) → apiApply op s = s) ∧
    ((apiApply (ApiOp.dismissAlert i) s).wallets = s.wallets ∧
     (apiApply (ApiOp.dismissAlert i) s).markets = s.markets ∧
     (apiApply (ApiOp.dismissAlert i) s).trades = s.trades ∧
     (apiApply (ApiOp.dismissAlert i) s).positions = s.positions ∧
     (apiApply (ApiOp.dismissAlert i) s).alerts
        = s.alerts.map (fun a =>
            if a.id = i ∧ a.status = AlertStatus.pending then
              { a with status := AlertStatus.dismissed }
            else a)) := by
  constructor
  · intro hne
    cases op
    case dismissAlert j => exact absurd rfl (hne j)
    all_goals rfl
  · exact ⟨rfl, rfl, rfl, rfl, rfl⟩

/-- Witness for C9: a read query is the identity on the store. -/
theorem api_read_only_except_dismiss_witness :
    apiApply ApiOp.getWallets initStore = initStore :=
  (api_read_only_except_dismiss ApiOp.getWallets initStore 0).1
    (fun _ h => ApiOp.noConfusion h)

/-- The alert status transitions the spec permits in one step: stay put, or
leave 'pending' for 'won', 'lost' or 'dismissed'. -/
def statusStepOk (a b : AlertStatus) : Prop :=
  a = b ∨ (a = AlertStatus.pending ∧
    (b = AlertStatus.won ∨ b = AlertStatus.lost ∨ b = AlertStatus.dismissed))

/-- Dismissing never changes an alert's id. -/
theorem dismissOne_id (i : Nat) (a : Alert) : (dismissOne i a).id = a.id := by
  unfold dismissOne
  split <;> rfl

/-- Dismissing performs only a permitted transition. -/
theorem dismissOne_step (i : Nat) (a : Alert) :
    statusStepOk a.status (dismissOne i a).status := by
  unfold dismissOne
  split
  case isTrue h => exact Or.inr ⟨h.2, Or.inr (Or.inr rfl)⟩
  case isFalse => exact Or.inl rfl

/-- The resolution sweep never changes an alert's id. -/
theorem sweepOne_id (s : Store) (a : Alert) : (sweepOne s a).id = a.id := by
  unfold sweepOne
  split <;> rfl

/-- The resolution sweep performs only a permitted transition. -/
theorem sweepOne_step (s : Store) (a : Alert) :
    statusStepOk a.status (sweepOne s a).status := by
  unfold sweepOne
  split
  case isTrue h =>
    refine Or.inr ⟨h.1, ?_⟩
    dsimp only
    split
    · exact Or.inl rfl
    · exact Or.inr (Or.inl rfl)
  case isFalse => exact Or.inl rfl

/-- A permitted step that lands in 'dismissed' started at 'pending' or was
already 'dismissed'. -/
theorem statusStepOk_to_dismissed {a b : AlertStatus} (hab : statusStepOk a b)
    (hb : b = AlertStatus.dismissed) :
    a = AlertStatus.pending ∨ a = AlertStatus.dismissed := by
  rcases hab with rfl | ⟨ha, _⟩
  · exact Or.inr hb
  · exact Or.inl ha

/-- C3: alert status transitions are monotonic under every operation of the
system: each stored Alert keeps its id, its status changes only along
pending → won | lost | dismissed (terminal states never move), and an Alert
observed as 'dismissed' after a step was 'pending' before it (or already
'dismissed'). -/
theorem alert_status_monotonic (op : Op) (s : Store) (j : Nat)
    (h : j < s.alerts.length) :
    ∃ h2 : j < (applyOp op s).alerts.length,
      ((applyOp op s).alerts.get ⟨j, h2⟩).id = (s.alerts.get ⟨j, h⟩).id ∧
      statusStepOk (s.alerts.get ⟨j, h⟩).status
        ((applyOp op s).alerts.get ⟨j, h2⟩).status ∧
      (((applyOp op s).alerts.get ⟨j, h2⟩).status = AlertStatus.dismissed →
        (s.alerts.get ⟨j, h⟩).status = AlertStatus.pending ∨
        (s.alerts.get ⟨j, h⟩).status = AlertStatus.dismissed) := by
  cases op with
  | ingest cfg now ti mi =>
    obtain ⟨r, hr⟩ := ingest_alerts_shape cfg now ti mi s
    have h2 : j < (applyOp (Op.ingest cfg now ti mi) s).alerts.length := by
      show j < (ingestTrade cfg now ti mi s).alerts.length
      rw [hr, List.length_append]
      omega
    have hg : (applyOp (Op.ingest cfg now ti mi) s).alerts.get ⟨j, h2⟩
        = s.alerts.get ⟨j, h⟩ := by
      show (ingestTrade cfg now ti mi s).alerts.get ⟨j, h2⟩ = _
      rw [List.get_of_eq hr]
      simp [List.getElem_append, h]
    refine ⟨h2, ?_, ?_, ?_⟩
    · rw [hg]
    · rw [hg]
      exact Or.inl rfl
    · rw [hg]
      exact fun hd => Or.inr hd
  | sweep =>
    have h2 : j < (applyOp Op.sweep s).alerts.length := by
      show j < (s.alerts.map (sweepOne s)).length
      simpa using h
    have hg : (applyOp Op.sweep s).alerts.get ⟨j, h2⟩
        = sweepOne s (s.alerts.get ⟨j, h⟩) := by
      show (s.alerts.map (sweepOne s)).get ⟨j, h2⟩ = _
      simp
    refine ⟨h2, ?_, ?_, ?_⟩
    · rw [hg]
      exact sweepOne_id s _
    · rw [hg]
      exact sweepOne_step s _
    · rw [hg]
      exact fun hd => statusStepOk_to_dismissed (sweepOne_step s _) hd
  | dismiss i =>
    have h2 : j < (applyOp (Op.dismiss i) s).alerts.length := by
      show j < (s.alerts.map (dismissOne i)).length
      simpa using h
    have hg : (applyOp (Op.dismiss i) s).alerts.get ⟨j, h2⟩
        = dismissOne i (s.alerts.get ⟨j, h⟩) := by
      show (s.alerts.map (dismissOne i)).get ⟨j, h2⟩ = _
      simp
    refine ⟨h2, ?_, ?_, ?_⟩
    · rw [hg]
      exact dismissOne_id i _
    · rw [hg]
      exact dismissOne_step i _
    · rw [hg]
      exact fun hd => statusStepOk_to_dismissed (dismissOne_step i _) hd

/-- An example pending alert row. -/
def alertEx : Alert :=
  { id := 1, wallet_address := "0xw", market_id := "mkt"
    trade_tx_hash := "0xaaa", risk_score := 25
    risk_factors := [("freshness", 10), ("timing", 10), ("market_niche", 5)]
    position_size := 9000, potential_payout := some 9000
    market_resolution_date := some 10, status := AlertStatus.pending
    actual_return := none }

/-- Witness for C3: dismissing over a one-alert store is a permitted step on
that alert. -/
theorem alert_status_monotonic_witness :
    ∃ h2 : 0 < (applyOp (Op.dismiss 1)
        { initStore with alerts := [alertEx] }).alerts.length,
      ((applyOp (Op.dismiss 1)
          { initStore with alerts := [alertEx] }).alerts.get ⟨0, h2⟩).id
        = (({ initStore with alerts := [alertEx] } : Store).alerts.get
            ⟨0, by decide⟩).id ∧
      statusStepOk (({ initStore with alerts := [alertEx] } : Store).alerts.get
          ⟨0, by decide⟩).status
        ((applyOp (Op.dismiss 1)
            { initStore with alerts := [alertEx] }).alerts.get ⟨0, h2⟩).status ∧
      (((applyOp (Op.dismiss 1)
            { initStore with alerts := [alertEx] }).alerts.get
              ⟨0, h2⟩).status = AlertStatus.dismissed →
        (({ initStore with alerts := [alertEx] } : Store).alerts.get
            ⟨0, by decide⟩).status = AlertStatus.pending ∨
        (({ initStore with alerts := [alertEx] } : Store).alerts.get
            ⟨0, by decide⟩).status = AlertStatus.dismissed) :=
  alert_status_monotonic (Op.dismiss 1)
    { initStore with alerts := [alertEx] } 0 (by decide)

/-- The triggering tx_hashes of a list of alerts. -/
def alertTxs (l : List Alert) : List String := l.map (fun a => a.trade_tx_hash)

/-- The alert-dedup invariant: no two stored alerts share a triggering
tx_hash. -/
def alertsDedup (s : Store) : Prop := (alertTxs s.alerts).Nodup

/-- The dedup check of `tryCreateAlert` preserves the alert-dedup invariant. -/
theorem tryCreateAlert_dedup (a : Alert) (s : Store) (h : alertsDedup s) :
    alertsDedup (tryCreateAlert a s) := by
  unfold tryCreateAlert
  split
  · exact h
  case isFalse hn =>
    show (alertTxs (s.alerts ++ [a])).Nodup
    simp only [alertTxs, List.map_append, List.map_cons, List.map_nil,
      List.nodup_append]
    refine ⟨h, by simp, ?_⟩
    intro x hx
    simp only [List.mem_map] at hx
    obtain ⟨b, hb, hbx⟩ := hx
    simp only [hasAlertFor, List.any_eq_true, beq_iff_eq, not_exists,
      Bool.not_eq_true] at hn
    simp only [List.mem_singleton]
    intro hxa
    subst hxa
    exact hn b ⟨hb, hbx⟩

/-- Ingestion preserves the alert-dedup invariant. -/
theorem ingest_alerts_dedup (cfg : Config) (now : Nat) (ti : Trade)
    (mi : Market) (s : Store) (h : alertsDedup s) :
    alertsDedup (ingestTrade cfg now ti mi s) := by
  unfold ingestTrade
  dsimp only
  repeat' split
  all_goals first
    | exact h
    | exact tryCreateAlert_dedup _ _ h

/-- Dismissing an alert does not change its triggering tx_hash. -/
theorem dismissOne_tx (i : Nat) (a : Alert) :
    (dismissOne i a).trade_tx_hash = a.trade_tx_hash := by
  unfold dismissOne
  split <;> rfl

/-- The resolution sweep does not change an alert's triggering tx_hash. -/
theorem sweepOne_tx (s : Store) (a : Alert) :
    (sweepOne s a).trade_tx_hash = a.trade_tx_hash := by
  unfold sweepOne
  split <;> rfl

/-- Every operation preserves the alert-dedup invariant. -/
theorem applyOp_alerts_dedup (op : Op) (s : Store) (h : alertsDedup s) :
    alertsDedup (applyOp op s) := by
  cases op with
  | ingest cfg now ti mi => exact ingest_alerts_dedup cfg now ti mi s h
  | sweep =>
    show (alertTxs (s.alerts.map (sweepOne s))).Nodup
    have he : alertTxs (s.alerts.map (sweepOne s)) = alertTxs s.alerts := by
      simp only [alertTxs, List.map_map]
      exact List.map_congr_left (fun a _ => sweepOne_tx s a)
    rw [he]
    exact h
  | dismiss i =>
    show (alertTxs (s.alerts.map (dismissOne i))).Nodup
    have he : alertTxs (s.alerts.map (dismissOne i)) = alertTxs s.alerts := by
      simp only [alertTxs, List.map_map]
      exact List.map_congr_left (fun a _ => dismissOne_tx i a)
    rw [he]
    exact h

/-- Every reachable store satisfies the alert-dedup invariant. -/
theorem reachable_alerts_dedup (s : Store) (hs : Reachable s) :
    alertsDedup s := by
  induction hs with
  | init => simp [alertsDedup, alertTxs, initStore]
  | step op _ ih => exact applyOp_alerts_dedup op _ ih

/-- C2: in every reachable store state at most one Alert references any given
triggering tx_hash, and attempting to create an Alert for a tx_hash that
already has one is a no-op leaving the store unchanged. -/
theorem at_most_one_alert_per_trade (s : Store) (hs : Reachable s) :
    (∀ tx, (s.alerts.filter (fun b => b.trade_tx_hash == tx)).length ≤ 1) ∧
    (∀ a : Alert, hasAlertFor s.alerts a.trade_tx_hash = true →
      tryCreateAlert a s = s) := by
  constructor
  · intro tx
    have h1 : (s.alerts.filter (fun b => b.trade_tx_hash == tx)).length
        = List.count tx (alertTxs s.alerts) := by
      rw [alertTxs, List.count, List.countP_eq_length_filter, List.filter_map,
        List.length_map]
      rfl
    rw [h1]
    exact List.nodup_iff_count_le_one.mp (reachable_alerts_dedup s hs) tx
  · intro a ha
    unfold tryCreateAlert
    simp [ha]

/-- Witness for C2 at the freshly initialized (hence reachable) store. -/
theorem at_most_one_alert_per_trade_witness :
    (∀ tx, (initStore.alerts.filter
        (fun b => b.trade_tx_hash == tx)).length ≤ 1) ∧
    (∀ a : Alert, hasAlertFor initStore.alerts a.trade_tx_hash = true →
      tryCreateAlert a initStore = initStore) :=
  at_most_one_alert_per_trade initStore Reachable.init

/-- The (wallet_address, market_id) keys of a list of position rows. -/
def posKeys (l : List Position) : List (String × String) :=
  l.map (fun p => (p.wallet_address, p.market_id))

/-- The position-uniqueness invariant of `UNIQUE(wallet_address, market_id)`
(schema.sql line 59): no two rows share a key. -/
def positionsUnique (s : Store) : Prop := (posKeys s.positions).Nodup

/-- The keys after a buy upsert: unchanged when the pair already has a row,
extended by the new pair otherwise. -/
theorem posKeys_updateBuy (t : Trade) (ps : List Position) :
    posKeys (updatePositionBuy t ps)
      = if ps.any (fun p =>
            p.wallet_address == t.wallet_address && p.market_id == t.market_id)
        then posKeys ps
        else posKeys ps ++ [(t.wallet_address, t.market_id)] := by
  induction ps with
  | nil => simp [updatePositionBuy, posKeys, newPositionFromBuy]
  | cons p ps ih =>
    unfold updatePositionBuy
    by_cases hc :
        (p.wallet_address == t.wallet_address && p.market_id == t.market_id) = true
    · simp [posKeys, hc, applyBuy, Bool.and_eq_true] at *
    · by_cases ha : (ps.any (fun q =>
          q.wallet_address == t.wallet_address && q.market_id == t.market_id)) = true
      · simp [posKeys, hc, ha] at ih ⊢
        exact ih
      · simp [posKeys, hc, ha] at ih ⊢
        exact ih

/-- A buy upsert preserves key uniqueness. -/
theorem updateBuy_nodup (t : Trade) (ps : List Position)
    (h : (posKeys ps).Nodup) : (posKeys (updatePositionBuy t ps)).Nodup := by
  rw [posKeys_updateBuy]
  split
  · exact h
  case isFalse ha =>
    simp only [List.nodup_append, List.nodup_cons, List.not_mem_nil,
      not_false_iff, List.nodup_nil, true_and, and_true]
    refine ⟨h, ?_⟩
    intro k hk
    simp only [posKeys, List.mem_map] at hk
    obtain ⟨p, hp, hkp⟩ := hk
    simp only [List.mem_singleton]
    intro hke
    rw [hke] at hkp
    have : p.wallet_address = t.wallet_address ∧ p.market_id = t.market_id :=
      ⟨congrArg Prod.fst hkp, congrArg Prod.snd hkp⟩
    simp only [List.any_eq_true, Bool.and_eq_true, beq_iff_eq, not_exists,
      Bool.not_eq_true] at ha
    exact ha p ⟨hp, this.1, this.2⟩

/-- A consistent sell updates a row in place, so the keys are unchanged. -/
theorem posKeys_updateSell (t : Trade) (ps : List Position) :
    posKeys (updatePositionSell t ps) = posKeys ps := by
  unfold updatePositionSell posKeys
  rw [List.map_map]
  apply List.map_congr_left
  intro p _
  dsimp only [Function.comp]
  split <;> rfl

/-- A consistent sell preserves key uniqueness. -/
theorem updateSell_nodup (t : Trade) (ps : List Position)
    (h : (posKeys ps).Nodup) : (posKeys (updatePositionSell t ps)).Nodup := by
  rw [posKeys_updateSell]
  exact h

/-- Ingestion preserves position-key uniqueness. -/
theorem ingest_positions_nodup (cfg : Config) (now : Nat) (ti : Trade)
    (mi : Market) (s : Store) (h : (posKeys s.positions).Nodup) :
    (posKeys (ingestTrade cfg now ti mi s).positions).Nodup := by
  unfold ingestTrade tryCreateAlert
  dsimp only
  repeat' split
  all_goals first
    | exact h
    | exact updateBuy_nodup ti s.positions h
    | exact updateSell_nodup ti s.positions h

/-- Every operation preserves position-key uniqueness. -/
theorem applyOp_positions_nodup (op : Op) (s : Store)
    (h : positionsUnique s) : positionsUnique (applyOp op s) := by
  cases op with
  | ingest cfg now ti mi => exact ingest_positions_nodup cfg now ti mi s h
  | sweep => exact h
  | dismiss i => exact h

/-- Every reachable store satisfies position-key uniqueness. -/
theorem reachable_positions_unique (s : Store) (hs : Reachable s) :
    positionsUnique s := by
  induction hs with
  | init => simp [positionsUnique, posKeys, initStore]
  | step op _ ih => exact applyOp_positions_nodup op _ ih

/-- When mapping `f` over `l` yields distinct values, at most one element of
`l` satisfies a predicate that pins down the value of `f`. -/
theorem length_filter_le_one_of_nodup_map {α β : Type} (f : α → β)
    (l : List α) (h : (l.map f).Nodup) (p : α → Bool) (k : β)
    (hp : ∀ a, p a = true → f a = k) :
    (l.filter p).length ≤ 1 := by
  induction l with
  | nil => simp
  | cons a l ih =>
    simp only [List.map_cons, List.nodup_cons] at h
    by_cases hpa : p a = true
    · rw [List.filter_cons_of_pos hpa]
      have hrest : l.filter p = [] := by
        rw [List.filter_eq_nil_iff]
        intro b hb hbp
        have h1 : f b = k := hp b hbp
        have h2 : f a = k := hp a hpa
        exact h.1 (h2 ▸ h1 ▸ List.mem_map_of_mem f hb)
      rw [hrest]
      simp
    · rw [List.filter_cons_of_neg (by simpa using hpa)]
      exact ih h.2

/-- With unique keys, at most one row matches any (wallet, market) pair. -/
theorem filter_key_length_le_one (l : List Position)
    (h : (posKeys l).Nodup) (addr mid : String) :
    (l.filter (fun p =>
        p.wallet_address == addr && p.market_id == mid)).length ≤ 1 := by
  rw [posKeys] at h
  apply length_filter_le_one_of_nodup_map
      (fun p => (p.wallet_address, p.market_id)) l h _ (addr, mid)
  intro a hpa
  simp only [Bool.and_eq_true, beq_iff_eq] at hpa
  simp [hpa.1, hpa.2]

/-- C4: in every reachable store state each (wallet_address, market_id) pair
has at most one Position row, and every operation applied to such a state
preserves this uniqueness. -/
theorem position_unique_per_pair (s : Store) (hs : Reachable s) :
    (∀ addr mid, (s.positions.filter (fun p =>
        p.wallet_address == addr && p.market_id == mid)).length ≤ 1) ∧
    (∀ (op : Op) (addr mid : String), ((applyOp op s).positions.filter (fun p =>
        p.wallet_address == addr && p.market_id == mid)).length ≤ 1) := by
  have hu := reachable_positions_unique s hs
  constructor
  · exact fun addr mid => filter_key_length_le_one s.positions hu addr mid
  · intro op addr mid
    exact filter_key_length_le_one (applyOp op s).positions
      (applyOp_positions_nodup op s hu) addr mid

/-- Witness for C4 at the freshly initialized (hence reachable) store. -/
theorem position_unique_per_pair_witness :
    (∀ addr mid, (initStore.positions.filter (fun p =>
        p.wallet_address == addr && p.market_id == mid)).length ≤ 1) ∧
    (∀ (op : Op) (addr mid : String),
      ((applyOp op initStore).positions.filter (fun p =>
        p.wallet_address == addr && p.market_id == mid)).length ≤ 1) :=
  position_unique_per_pair initStore Reachable.init

end PolyTracker
